import Mathlib

/-!
Shallow embedding of the procedural Christmas-tree scene (src/index.tsx).

JavaScript numbers are embedded as real numbers (`ℝ`); `Math.random()`
call sequences are embedded as explicit streams `rand : ℕ → ℝ` whose
values are assumed to lie in `[0, 1)`.  External three.js library
functions that the source calls but does not define
(`Object3D.lookAt`, `CatmullRomCurve3.getPointAt`) are taken as
function parameters of the embedded definitions.
-/

noncomputable section

/-- An RGB color, as three.js stores it: three floats in `[0,1]`. -/
abbrev Color : Type := ℝ × ℝ × ℝ

/-- `new THREE.Color('#rrggbb')`: each 8-bit channel is divided by 255. -/
def rgb (r g b : ℕ) : Color := ((r : ℝ) / 255, (g : ℝ) / 255, (b : ℝ) / 255)

/-- The theme palette record (src/index.tsx, `THEMES` value type). -/
structure Theme where
  leavesHigh : Color
  leavesLow : Color
  ribbon : Color
  text : Color
  bg : Color
  star : Color

/-- The eight theme identifiers (src/index.tsx, `ThemeKey`). -/
inductive ThemeKey where
  | deepBlue | lightBlue | pink | red | white | green | purple | gold
  deriving DecidableEq

/-- The `THEMES` lookup table (src/index.tsx lines 20-101). -/
def THEMES : ThemeKey → Theme
  | .deepBlue =>
    { leavesHigh := rgb 0x3b 0x82 0xf6, leavesLow := rgb 0x1e 0x3a 0x8a
      ribbon := rgb 0xfc 0xd3 0x4d, text := rgb 0x45 0x1a 0x03
      bg := rgb 0x0b 0x11 0x20, star := rgb 0xfb 0xbf 0x24 }
  | .lightBlue =>
    { leavesHigh := rgb 0xe0 0xf2 0xfe, leavesLow := rgb 0x0e 0xa5 0xe9
      ribbon := rgb 0x1e 0x3a 0x8a, text := rgb 0xff 0xff 0xff
      bg := rgb 0x0f 0x17 0x2a, star := rgb 0xba 0xe6 0xfd }
  | .pink =>
    { leavesHigh := rgb 0xfb 0xcf 0xe8, leavesLow := rgb 0xdb 0x27 0x77
      ribbon := rgb 0xff 0xf1 0xf2, text := rgb 0x83 0x18 0x43
      bg := rgb 0x4a 0x04 0x4e, star := rgb 0xfc 0xe7 0xf3 }
  | .red =>
    { leavesHigh := rgb 0xef 0x44 0x44, leavesLow := rgb 0x99 0x1b 0x1b
      ribbon := rgb 0xfd 0xe0 0x47, text := rgb 0x45 0x0a 0x0a
      bg := rgb 0x2d 0x0a 0x0a, star := rgb 0xfa 0xcc 0x15 }
  | .white =>
    { leavesHigh := rgb 0xff 0xff 0xff, leavesLow := rgb 0x94 0xa3 0xb8
      ribbon := rgb 0xdc 0x26 0x26, text := rgb 0xff 0xff 0xff
      bg := rgb 0x11 0x18 0x27, star := rgb 0xf1 0xf5 0xf9 }
  | .green =>
    { leavesHigh := rgb 0x4a 0xde 0x80, leavesLow := rgb 0x15 0x80 0x3d
      ribbon := rgb 0xef 0x44 0x44, text := rgb 0xff 0xff 0xff
      bg := rgb 0x02 0x2c 0x22, star := rgb 0xfb 0xbf 0x24 }
  | .purple =>
    { leavesHigh := rgb 0xd8 0xb4 0xfe, leavesLow := rgb 0x7e 0x22 0xce
      ribbon := rgb 0xfa 0xe8 0xff, text := rgb 0x3b 0x07 0x64
      bg := rgb 0x1e 0x1b 0x4b, star := rgb 0xe9 0xd5 0xff }
  | .gold =>
    { leavesHigh := rgb 0xfd 0xe0 0x47, leavesLow := rgb 0xd9 0x77 0x06
      ribbon := rgb 0xb9 0x1c 0x1c, text := rgb 0xfc 0xd3 0x4d
      bg := rgb 0x1c 0x19 0x17, star := rgb 0xff 0xfb 0xeb }

/-- `THREE.Color.lerpColors(a, b, alpha)` (also `Color.lerp`): each
channel becomes `a + (b - a) * alpha`. -/
def lerpColors (a b : Color) (alpha : ℝ) : Color :=
  (a.1 + (b.1 - a.1) * alpha,
   a.2.1 + (b.2.1 - a.2.1) * alpha,
   a.2.2 + (b.2.2 - a.2.2) * alpha)

/-- The per-instance height factor of the color useEffect
(src/index.tsx lines 248-261): normalize `y` by the fixed bounds,
clamp to `[0,1]`, add noise `(nr - 0.5) * 0.05` where `nr` is the
`Math.random()` draw, and clamp again. -/
def heightFactor (y nr : ℝ) : ℝ :=
  let minY : ℝ := -4.0
  let maxY : ℝ := 5.5
  let range := maxY - minY
  let t := (y - minY) / range
  let t := max 0 (min 1 t)
  let noise := (nr - 0.5) * 0.05
  max 0 (min 1 (t + noise))

/-- The two-segment gradient of the color useEffect (src/index.tsx
lines 263-271): below `0.65` blend `colorLow → colorHigh`, above it
blend `colorHigh → snowColor` with the local fraction damped by `0.7`. -/
def assignBrushColor (colorLow colorHigh : Color) (t : ℝ) : Color :=
  let snowColor : Color := rgb 0xff 0xff 0xff
  if t < 0.65 then
    lerpColors colorLow colorHigh (t / 0.65)
  else
    lerpColors colorHigh snowColor ((t - 0.65) / 0.35 * 0.7)

/-- Modelled from the spec: the spec's phrasing of linear interpolation,
`(1-α)·a + α·b` per channel, used to compare the code's gradient
against the spec's description. -/
def specLerp (a b : Color) (alpha : ℝ) : Color :=
  ((1 - alpha) * a.1 + alpha * b.1,
   (1 - alpha) * a.2.1 + alpha * b.2.1,
   (1 - alpha) * a.2.2 + alpha * b.2.2)

/-- Modelled from the spec: the two-segment gradient exactly as the
spec words it (lerp `low → high` over `t/0.65`, else `high → white`
over `(t-0.65)/0.35` scaled by `0.7`). -/
def specTwoSegmentGradient (low high : Color) (t : ℝ) : Color :=
  if t < 0.65 then specLerp low high (t / 0.65)
  else specLerp high (1, 1, 1) ((t - 0.65) / 0.35 * 0.7)

/-- All three channels lie in `[0,1]`. -/
def inUnitCube (c : Color) : Prop :=
  0 ≤ c.1 ∧ c.1 ≤ 1 ∧ 0 ≤ c.2.1 ∧ c.2.1 ≤ 1 ∧ 0 ≤ c.2.2 ∧ c.2.2 ≤ 1

/-- `BackgroundController`'s per-frame blend (src/index.tsx lines
110-118): clamp the frame delta to `0.1` and lerp the current color
toward the target with factor `delta * 2`. -/
def bgStep (current targetColor : Color) (delta : ℝ) : Color :=
  let d := min delta 0.1
  lerpColors current targetColor (d * 2)

end

section Helpers

/-- One lerped channel of colors in `[0,1]` stays in `[0,1]` for a
fraction in `[0,1]`. -/
theorem lerp_channel_unit {a b alpha : ℝ} (ha0 : 0 ≤ a) (ha1 : a ≤ 1)
    (hb0 : 0 ≤ b) (hb1 : b ≤ 1) (h0 : 0 ≤ alpha) (h1 : alpha ≤ 1) :
    0 ≤ a + (b - a) * alpha ∧ a + (b - a) * alpha ≤ 1 := by
  constructor
  · nlinarith [mul_nonneg h0 hb0, mul_nonneg (sub_nonneg.2 h1) ha0]
  · nlinarith [mul_nonneg h0 (sub_nonneg.2 hb1), mul_nonneg (sub_nonneg.2 h1) (sub_nonneg.2 ha1)]

/-- A lerped channel stays strictly below `1` when both endpoint
channels are strictly below `1` and the fraction is in `[0,1]`. -/
theorem lerp_channel_lt_one {a b alpha : ℝ} (ha1 : a < 1) (hb1 : b < 1)
    (h0 : 0 ≤ alpha) (h1 : alpha ≤ 1) :
    a + (b - a) * alpha < 1 := by
  rcases eq_or_lt_of_le h0 with h | h
  · nlinarith
  · nlinarith [mul_nonneg (sub_nonneg.2 h1) (sub_nonneg.2 ha1.le), mul_pos h (sub_pos.2 hb1)]

/-- Both leaf colors of every theme have all channels in `[0,1]`. -/
theorem theme_leaves_unit (k : ThemeKey) :
    inUnitCube (THEMES k).leavesLow ∧ inUnitCube (THEMES k).leavesHigh := by
  cases k <;> constructor <;>
    simp only [THEMES, rgb, inUnitCube] <;> norm_num

/-- Every theme except `white` has both leaf red channels strictly
below `1`. -/
theorem theme_red_lt_one (k : ThemeKey) (hk : k ≠ ThemeKey.white) :
    (THEMES k).leavesLow.1 < 1 ∧ (THEMES k).leavesHigh.1 < 1 := by
  cases k <;> simp only [THEMES, rgb] <;> norm_num
  exact absurd rfl hk

/-- The gradient's channels stay in `[0,1]` whenever the input colors'
channels do and `t ∈ [0,1]`. -/
theorem assignBrushColor_unit {low high : Color} {t : ℝ}
    (hlow : inUnitCube low) (hhigh : inUnitCube high)
    (ht0 : 0 ≤ t) (ht1 : t ≤ 1) :
    inUnitCube (assignBrushColor low high t) := by
  obtain ⟨l1, l2, l3, l4, l5, l6⟩ := hlow
  obtain ⟨h1, h2, h3, h4, h5, h6⟩ := hhigh
  unfold assignBrushColor lerpColors rgb inUnitCube
  split
  · rename_i hlt
    have ha0 : (0:ℝ) ≤ t / 0.65 := by positivity
    have ha1 : t / 0.65 ≤ 1 := by
      rw [div_le_one (by norm_num)]; linarith
    refine ⟨(lerp_channel_unit l1 l2 h1 h2 ha0 ha1).1,
      (lerp_channel_unit l1 l2 h1 h2 ha0 ha1).2,
      (lerp_channel_unit l3 l4 h3 h4 ha0 ha1).1,
      (lerp_channel_unit l3 l4 h3 h4 ha0 ha1).2,
      (lerp_channel_unit l5 l6 h5 h6 ha0 ha1).1,
      (lerp_channel_unit l5 l6 h5 h6 ha0 ha1).2⟩
  · rename_i hge
    push_neg at hge
    have ha0 : (0:ℝ) ≤ (t - 0.65) / 0.35 * 0.7 := by
      have : (0:ℝ) ≤ t - 0.65 := by linarith
      positivity
    have ha1 : (t - 0.65) / 0.35 * 0.7 ≤ 1 := by
      have : (t - 0.65) / 0.35 ≤ 1 := by
        rw [div_le_one (by norm_num)]; linarith
      linarith
    have w0 : (0:ℝ) ≤ (255:ℝ)/255 := by norm_num
    have w1 : (255:ℝ)/255 ≤ 1 := by norm_num
    refine ⟨(lerp_channel_unit h1 h2 w0 w1 ha0 ha1).1,
      (lerp_channel_unit h1 h2 w0 w1 ha0 ha1).2,
      (lerp_channel_unit h3 h4 w0 w1 ha0 ha1).1,
      (lerp_channel_unit h3 h4 w0 w1 ha0 ha1).2,
      (lerp_channel_unit h5 h6 w0 w1 ha0 ha1).1,
      (lerp_channel_unit h5 h6 w0 w1 ha0 ha1).2⟩

end Helpers

noncomputable section SnowDefs

/-- One falling-snow particle (src/index.tsx lines 133-145): a stored
base position plus per-particle speed, wobble parameters and scale. -/
structure SnowParticle where
  position : ℝ × ℝ × ℝ
  speed : ℝ
  wobbleSpeed : ℝ
  wobbleOffset : ℝ
  scale : ℝ

/-- `FallingSnow`'s particle construction (src/index.tsx lines
133-145): 800 particles, each consuming seven `Math.random()` draws in
evaluation order (position x, y, z, speed, wobbleSpeed, wobbleOffset,
scale). -/
def mkSnow (rand : ℕ → ℝ) : List SnowParticle :=
  (List.range 800).map fun i =>
    { position := ((rand (7 * i) - 0.5) * 25,
                   rand (7 * i + 1) * 20,
                   (rand (7 * i + 2) - 0.5) * 25)
      speed := 0.03 + rand (7 * i + 3) * 0.05
      wobbleSpeed := 0.5 + rand (7 * i + 4)
      wobbleOffset := rand (7 * i + 5) * Real.pi * 2
      scale := 0.04 + rand (7 * i + 6) * 0.06 }

/-- The stored-state part of `FallingSnow`'s per-frame update
(src/index.tsx lines 151-153): decrement the base height by the fall
speed and recycle to `15` when it drops below `-5`. -/
def stepSnowParticle (p : SnowParticle) : SnowParticle :=
  let y := p.position.2.1 - p.speed
  { p with position := (p.position.1, if y < -5 then 15 else y, p.position.2.2) }

/-- One frame of the snow update over the whole population. -/
def stepSnow (ps : List SnowParticle) : List SnowParticle :=
  ps.map stepSnowParticle

/-- `n` successive frames of the snow update. -/
def iterSnow : ℕ → List SnowParticle → List SnowParticle
  | 0, ps => ps
  | n + 1, ps => iterSnow n (stepSnow ps)

/-- The rendered x position of a particle (src/index.tsx lines
155-157): the wobble offset is applied to the rendered position only,
not to the stored base position. -/
def snowRenderX (time : ℝ) (p : SnowParticle) : ℝ :=
  p.position.1 + Real.sin (time * p.wobbleSpeed + p.wobbleOffset) * 0.05

end SnowDefs

noncomputable section TreeDefs

/-- `LAYER_COUNT` (src/index.tsx line 180). -/
def LAYER_COUNT : ℕ := 9

/-- `BRUSH_COUNT` (src/index.tsx line 181). -/
def BRUSH_COUNT : ℕ := 1100

/-- One tree brush instance: the triples pushed to the `pos`, `rot`
and `sca` arrays of the layout useMemo (src/index.tsx lines 184-223). -/
structure Brush where
  position : ℝ × ℝ × ℝ
  rotation : ℝ × ℝ × ℝ
  scale : ℝ × ℝ × ℝ

/-- The layer base height `yBase = -3.5 + l * 1.3` (src/index.tsx
line 192). -/
def yBase (l : ℕ) : ℝ := -3.5 + l * 1.3

/-- The layer base radius
`radiusBase = 3.8 * (1 - layerProgress * 0.95)` with
`layerProgress = l / (LAYER_COUNT - 1)` (src/index.tsx lines 191,
193), for a general layer count `L`. -/
def radiusBase (l L : ℕ) : ℝ :=
  let layerProgress : ℝ := l / ((L : ℝ) - 1)
  3.8 * (1 - layerProgress * 0.95)

/-- One iteration of the inner brush loop (src/index.tsx lines
199-219).  `look p q` stands for the three.js `Object3D.lookAt` call:
the Euler rotation of an object at `p` looking at `q`.  `k` is the
index of the next unconsumed `Math.random()` draw; each brush consumes
seven draws in evaluation order (disk radius, angle, height jitter,
rotation-x jitter, rotation-z jitter, rotation-y jitter, scale). -/
def mkBrush (look : ℝ × ℝ × ℝ → ℝ × ℝ × ℝ → ℝ × ℝ × ℝ)
    (rand : ℕ → ℝ) (k : ℕ) (yB rB : ℝ) : Brush :=
  let r := Real.sqrt (rand k) * rB
  let angle := rand (k + 1) * Real.pi * 2
  let h := rand (k + 2) * 1.0
  let x := Real.cos angle * r
  let z := Real.sin angle * r
  let y := yB + h * (1 - r / rB * 0.3)
  let e := look (x, y, z) (0, y + 5, 0)
  let rx := e.1 + (rand (k + 3) - 0.5) * 1.0
  let rz := e.2.2 + (rand (k + 4) - 0.5) * 1.0
  let ry := e.2.1 + (rand (k + 5) - 0.5) * 2.0
  let s := 0.3 + rand (k + 6) * 0.5
  { position := (x, y, z), rotation := (rx, ry, rz), scale := (s, s, s) }

/-- The inner loop `for (let i = 0; i < count; i++)` of the layout
useMemo (src/index.tsx lines 196-220), with its early
`if (index >= BRUSH_COUNT) break` guard.  `cnt` is the remaining
iteration budget and `idx` the running global instance index. -/
def layerBrushes (look : ℝ × ℝ × ℝ → ℝ × ℝ × ℝ → ℝ × ℝ × ℝ)
    (rand : ℕ → ℝ) (N : ℕ) : ℕ → ℕ → ℝ → ℝ → List Brush
  | 0, _, _, _ => []
  | cnt + 1, idx, yB, rB =>
    if N ≤ idx then []
    else mkBrush look rand (7 * idx) yB rB ::
      layerBrushes look rand N cnt (idx + 1) yB rB

/-- The outer loop `for (let l = 0; l < LAYER_COUNT; l++)` of the
layout useMemo (src/index.tsx lines 190-221): `fuel` counts the
remaining layers, `l` is the current layer index, and each layer runs
the inner loop for `count = Math.floor(N / L)` iterations. -/
def treeLayers (look : ℝ × ℝ × ℝ → ℝ × ℝ × ℝ → ℝ × ℝ × ℝ)
    (rand : ℕ → ℝ) (N L : ℕ) : ℕ → ℕ → ℕ → List Brush
  | 0, _, _ => []
  | fuel + 1, l, idx =>
    let layer := layerBrushes look rand N (N / L) idx (yBase l) (radiusBase l L)
    layer ++ treeLayers look rand N L fuel (l + 1) (idx + layer.length)

/-- The complete layout generation of the useMemo (src/index.tsx lines
184-223) for instance count `N` and layer count `L`. -/
def treeBrushes (look : ℝ × ℝ × ℝ → ℝ × ℝ × ℝ → ℝ × ℝ × ℝ)
    (rand : ℕ → ℝ) (N L : ℕ) : List Brush :=
  treeLayers look rand N L L 0 0

/-- The flat `positions` array (three entries pushed per brush,
src/index.tsx line 213). -/
def treePositions (look : ℝ × ℝ × ℝ → ℝ × ℝ × ℝ → ℝ × ℝ × ℝ)
    (rand : ℕ → ℝ) (N L : ℕ) : List ℝ :=
  (treeBrushes look rand N L).flatMap fun b =>
    [b.position.1, b.position.2.1, b.position.2.2]

/-- The flat `rotations` array (src/index.tsx line 214). -/
def treeRotations (look : ℝ × ℝ × ℝ → ℝ × ℝ × ℝ → ℝ × ℝ × ℝ)
    (rand : ℕ → ℝ) (N L : ℕ) : List ℝ :=
  (treeBrushes look rand N L).flatMap fun b =>
    [b.rotation.1, b.rotation.2.1, b.rotation.2.2]

/-- The flat `scales` array (src/index.tsx line 217). -/
def treeScales (look : ℝ × ℝ × ℝ → ℝ × ℝ × ℝ → ℝ × ℝ × ℝ)
    (rand : ℕ → ℝ) (N L : ℕ) : List ℝ :=
  (treeBrushes look rand N L).flatMap fun b =>
    [b.scale.1, b.scale.2.1, b.scale.2.2]

/-- The triple of reads `positions[i*3]`, `positions[i*3+1]`,
`positions[i*3+2]` performed for instance `i` by the matrix-init and
color useEffects (src/index.tsx lines 230-232, 253), as total lookups. -/
def readVec3 (a : List ℝ) (i : ℕ) : Option ℝ × Option ℝ × Option ℝ :=
  (a.get? (i * 3), a.get? (i * 3 + 1), a.get? (i * 3 + 2))

end TreeDefs

noncomputable section CurveDefs

/-- The helix control points of the ribbon curve useMemo
(src/index.tsx lines 317-333): 201 points, each at
`(cos(angle)·r, y, sin(angle)·r)` with `t = i / 200`,
`angle = t·π·2·turns`, linear height and linearly tapering radius. -/
def curvePoints : List (ℝ × ℝ × ℝ) :=
  let turns : ℝ := 3.5
  let hStart : ℝ := -3.2
  let hEnd : ℝ := 5.8
  let segments : ℕ := 200
  (List.range (segments + 1)).map fun (i : ℕ) =>
    let t : ℝ := (i : ℝ) / (segments : ℝ)
    let angle := t * Real.pi * 2 * turns
    let y := hStart + t * (hEnd - hStart)
    let r := 3.7 * (1 - t) + 0.3
    (Real.cos angle * r, y, Real.sin angle * r)

/-- `Math.atan2(y, x)`, embedded directly. -/
def atan2 (y x : ℝ) : ℝ :=
  if 0 < x then Real.arctan (y / x)
  else if x < 0 then
    (if 0 ≤ y then Real.arctan (y / x) + Real.pi
     else Real.arctan (y / x) - Real.pi)
  else
    (if 0 < y then Real.pi / 2 else if y < 0 then -(Real.pi / 2) else 0)

end CurveDefs

section TextDefs

/-- One text glyph placement of the ribbon (src/index.tsx lines
371-375). -/
structure Glyph where
  char : Char
  position : ℝ × ℝ × ℝ
  rotation : ℝ × ℝ × ℝ

/-- The fixed decorative separator `"   ★   "` (src/index.tsx
line 353). -/
def ribbonSep : List Char := "   ★   ".toList

/-- The character sequence of the ribbon text (src/index.tsx lines
353-356): append the separator, repeat the combined string
`Math.ceil(140 / length)` times, truncate to 140 characters, and split
into characters. -/
def ribbonChars (text : List Char) : List Char :=
  let baseString := text ++ ribbonSep
  let totalCharsNeeded : ℕ := 140
  ((List.replicate ((totalCharsNeeded + baseString.length - 1) / baseString.length)
    baseString).flatten).take totalCharsNeeded

/-- The placement of the `i`-th of `n` glyphs (src/index.tsx lines
359-375).  `g` stands for the three.js `curve.getPointAt` method of
the `CatmullRomCurve3` built from `curvePoints`. -/
noncomputable def glyphAt (g : ℝ → ℝ × ℝ × ℝ) (n : ℕ) (c : Char) (i : ℕ) : Glyph :=
  let startT : ℝ := 0.02
  let endT : ℝ := 0.98
  let range := endT - startT
  let step := range / (n : ℝ)
  let t := endT - (i : ℝ) * step
  let safeT := min 0.999 (max 0.001 t)
  let point := g safeT
  { char := c, position := point, rotation := (0, atan2 point.1 point.2.2, 0) }

/-- The full text layout useMemo (src/index.tsx lines 351-378): empty
text short-circuits to an empty layout, otherwise one glyph per
character of `ribbonChars`. -/
noncomputable def textLayout (g : ℝ → ℝ × ℝ × ℝ) (text : List Char) : List Glyph :=
  if text = [] then []
  else
    let chars := ribbonChars text
    (List.range chars.length).map fun i => glyphAt g chars.length (chars.getD i ' ') i

end TextDefs

section TreeLemmas

variable {look : ℝ × ℝ × ℝ → ℝ × ℝ × ℝ → ℝ × ℝ × ℝ} {rand : ℕ → ℝ} {N L : ℕ}

/-- The inner loop emits `min cnt (N - idx)` brushes. -/
theorem layerBrushes_length (look : ℝ × ℝ × ℝ → ℝ × ℝ × ℝ → ℝ × ℝ × ℝ)
    (rand : ℕ → ℝ) (N : ℕ) :
    ∀ (cnt idx : ℕ) (yB rB : ℝ),
      (layerBrushes look rand N cnt idx yB rB).length = min cnt (N - idx) := by
  intro cnt
  induction cnt with
  | zero => intro idx yB rB; simp [layerBrushes]
  | succ cnt ih =>
    intro idx yB rB
    rw [layerBrushes]
    split
    · rename_i h
      simp only [List.length_nil]
      omega
    · rename_i h
      simp only [List.length_cons, ih]
      omega

/-- Running the outer loop from index `idx ≤ N` advances the index to
`min (idx + fuel * (N / L)) N`. -/
theorem treeLayers_length (look : ℝ × ℝ × ℝ → ℝ × ℝ × ℝ → ℝ × ℝ × ℝ)
    (rand : ℕ → ℝ) (N L : ℕ) :
    ∀ (fuel l idx : ℕ), idx ≤ N →
      idx + (treeLayers look rand N L fuel l idx).length
        = min (idx + fuel * (N / L)) N := by
  intro fuel
  induction fuel with
  | zero => intro l idx h; simp [treeLayers]; omega
  | succ fuel ih =>
    intro l idx h
    rw [treeLayers]
    simp only [List.length_append, layerBrushes_length]
    have h2 : idx + min (N / L) (N - idx) ≤ N := by omega
    have h3 := ih (l + 1) (idx + min (N / L) (N - idx)) h2
    rw [Nat.succ_mul]
    omega

/-- The layout always emits exactly `⌊N / L⌋ * L` brushes. -/
theorem treeBrushes_length (look : ℝ × ℝ × ℝ → ℝ × ℝ × ℝ → ℝ × ℝ × ℝ)
    (rand : ℕ → ℝ) (N L : ℕ) :
    (treeBrushes look rand N L).length = N / L * L := by
  have h := treeLayers_length look rand N L L 0 0 (Nat.zero_le N)
  have h2 : N / L * L ≤ N := Nat.div_mul_le_self N L
  rw [treeBrushes]
  rw [Nat.mul_comm L (N / L)] at h
  omega

/-- The horizontal radius of a generated brush is bounded by the layer
base radius, whenever the disk draw lies in `[0, 1)` and the base
radius is nonnegative. -/
theorem mkBrush_radius (look : ℝ × ℝ × ℝ → ℝ × ℝ × ℝ → ℝ × ℝ × ℝ)
    (rand : ℕ → ℝ) (k : ℕ) (yB rB : ℝ)
    (h0 : 0 ≤ rand k) (h1 : rand k < 1) (hrB : 0 ≤ rB) :
    Real.sqrt ((mkBrush look rand k yB rB).position.1 ^ 2
      + (mkBrush look rand k yB rB).position.2.2 ^ 2) ≤ rB := by
  simp only [mkBrush]
  set A := rand (k + 1) * Real.pi * 2 with hA
  set R := Real.sqrt (rand k) * rB with hR
  have key : (Real.cos A * R) ^ 2 + (Real.sin A * R) ^ 2 = R ^ 2 := by
    have h := Real.sin_sq_add_cos_sq A
    nlinarith [h]
  have hR0 : 0 ≤ R := mul_nonneg (Real.sqrt_nonneg _) hrB
  rw [key, Real.sqrt_sq hR0, hR]
  exact mul_le_of_le_one_left hrB (Real.sqrt_le_one.2 h1.le)

/-- Every brush of an inner-loop run with nonnegative base radius has
horizontal radius at most that base radius. -/
theorem layerBrushes_radius (look : ℝ × ℝ × ℝ → ℝ × ℝ × ℝ → ℝ × ℝ × ℝ)
    (rand : ℕ → ℝ) (N : ℕ)
    (hrand : ∀ n, 0 ≤ rand n ∧ rand n < 1) :
    ∀ (cnt idx : ℕ) (yB rB : ℝ), 0 ≤ rB →
      ∀ b ∈ layerBrushes look rand N cnt idx yB rB,
        Real.sqrt (b.position.1 ^ 2 + b.position.2.2 ^ 2) ≤ rB := by
  intro cnt
  induction cnt with
  | zero => intro idx yB rB _ b hb; simp [layerBrushes] at hb
  | succ cnt ih =>
    intro idx yB rB hrB b hb
    rw [layerBrushes] at hb
    split at hb
    · simp at hb
    · rcases List.mem_cons.1 hb with h | h
      · subst h
        exact mkBrush_radius look rand (7 * idx) yB rB
          (hrand (7 * idx)).1 (hrand (7 * idx)).2 hrB
      · exact ih (idx + 1) yB rB hrB b h

/-- The layer base radius is nonnegative for every in-range layer. -/
theorem radiusBase_nonneg (l L : ℕ) (h : l < L) : 0 ≤ radiusBase l L := by
  unfold radiusBase
  rcases Nat.lt_or_ge L 2 with hL | hL
  · interval_cases L
    · omega
    · have hl : l = 0 := by omega
      subst hl
      norm_num
  · have hd : (0:ℝ) < (L : ℝ) - 1 := by
      have : (2:ℝ) ≤ (L : ℝ) := by exact_mod_cast hL
      linarith
    have hp0 : (0:ℝ) ≤ (l : ℝ) / ((L : ℝ) - 1) := by positivity
    have hp1 : (l : ℝ) / ((L : ℝ) - 1) ≤ 1 := by
      rw [div_le_one hd]
      have : (l : ℝ) ≤ (L : ℝ) - 1 := by
        have : (l : ℝ) + 1 ≤ (L : ℝ) := by exact_mod_cast h
        linarith
      linarith
    nlinarith

end TreeLemmas

section TextLemmas

/-- Ceiling-division repetition reaches the target: `b` copies of a
block of positive length, `⌈a / b⌉` many, cover `a`. -/
theorem le_ceilDiv_mul (a b : ℕ) (hb : 0 < b) : a ≤ (a + b - 1) / b * b := by
  have h1 := Nat.div_add_mod (a + b - 1) b
  have h2 := Nat.mod_lt (a + b - 1) hb
  rw [Nat.mul_comm]
  generalize hm : b * ((a + b - 1) / b) = m at h1 ⊢
  omega

/-- The ribbon character sequence always has exactly 140 characters
(for any text, since the separator itself is nonempty). -/
theorem ribbonChars_length (text : List Char) : (ribbonChars text).length = 140 := by
  have hb : 0 < (text ++ ribbonSep).length := by simp [ribbonSep]
  have key := le_ceilDiv_mul 140 (text ++ ribbonSep).length hb
  simp only [ribbonChars, List.length_take, List.length_flatten,
    List.map_replicate, List.sum_replicate, smul_eq_mul]
  omega

/-- Reading a list back by indices reproduces the list. -/
theorem range_map_getD {α : Type} (l : List α) (d : α) :
    (List.range l.length).map (fun i => l.getD i d) = l := by
  induction l with
  | nil => simp
  | cons a l ih =>
    rw [List.length_cons, List.range_succ_eq_map, List.map_cons, List.map_map]
    have heq : ((fun i => (a :: l).getD i d) ∘ (· + 1)) = fun i => l.getD i d := by
      funext i
      simp [List.getD_cons_succ]
    rw [heq, ih]
    rfl

/-- For nonempty text the layout has one glyph per ribbon character. -/
theorem textLayout_length (g : ℝ → ℝ × ℝ × ℝ) (text : List Char)
    (h : text ≠ []) : (textLayout g text).length = 140 := by
  simp only [textLayout, if_neg h, List.length_map, List.length_range,
    ribbonChars_length]

/-- The glyph characters, in index order, are exactly the ribbon
character sequence. -/
theorem textLayout_map_char (g : ℝ → ℝ × ℝ × ℝ) (text : List Char)
    (h : text ≠ []) : (textLayout g text).map Glyph.char = ribbonChars text := by
  simp only [textLayout, if_neg h, List.map_map]
  have heq : (Glyph.char ∘ fun i =>
      glyphAt g (ribbonChars text).length ((ribbonChars text).getD i ' ') i)
      = fun i => (ribbonChars text).getD i ' ' := by
    funext i
    rfl
  rw [heq, range_map_getD]

/-- The `i`-th glyph of a nonempty-text layout. -/
theorem textLayout_get? (g : ℝ → ℝ × ℝ × ℝ) (text : List Char)
    (h : text ≠ []) (i : ℕ) (hi : i < 140) :
    (textLayout g text).get? i
      = some (glyphAt g 140 ((ribbonChars text).getD i ' ') i) := by
  simp only [textLayout, if_neg h, ribbonChars_length]
  rw [List.get?_map, List.get?_range hi]
  rfl

end TextLemmas

section SnowLemmas

/-- The per-frame snow update never changes the particle count. -/
theorem iterSnow_length : ∀ (n : ℕ) (ps : List SnowParticle),
    (iterSnow n ps).length = ps.length := by
  intro n
  induction n with
  | zero => intro ps; rfl
  | succ n ih =>
    intro ps
    rw [iterSnow, ih, stepSnow, List.length_map]

/-- A pointwise-preserved predicate is preserved by any number of snow
updates. -/
theorem iterSnow_preserves (P : SnowParticle → Prop)
    (hP : ∀ p, P p → P (stepSnowParticle p)) :
    ∀ (n : ℕ) (ps : List SnowParticle), (∀ p ∈ ps, P p) →
      ∀ p ∈ iterSnow n ps, P p := by
  intro n
  induction n with
  | zero => intro ps h p hp; exact h p hp
  | succ n ih =>
    intro ps h p hp
    rw [iterSnow] at hp
    refine ih (stepSnow ps) ?_ p hp
    intro q hq
    rw [stepSnow] at hq
    obtain ⟨q', hq', rfl⟩ := List.mem_map.1 hq
    exact hP q' (h q' hq')

/-- The update preserves nonnegative speed together with height in
`[-5, c]` for any ceiling `c ≥ 15`. -/
theorem stepSnowParticle_bounds (c : ℝ) (hc : 15 ≤ c) (p : SnowParticle)
    (h : 0 ≤ p.speed ∧ -5 ≤ p.position.2.1 ∧ p.position.2.1 ≤ c) :
    0 ≤ (stepSnowParticle p).speed
      ∧ -5 ≤ (stepSnowParticle p).position.2.1
      ∧ (stepSnowParticle p).position.2.1 ≤ c := by
  obtain ⟨hs, h1, h2⟩ := h
  refine ⟨hs, ?_, ?_⟩
  · simp only [stepSnowParticle]
    split
    · norm_num
    · rename_i hcond
      push_neg at hcond
      linarith
  · simp only [stepSnowParticle]
    split
    · linarith
    · linarith

/-- Construction-time facts: every particle starts with speed at least
`0.03` and height in `[0, 20)`. -/
theorem mkSnow_init (rand : ℕ → ℝ) (hr : ∀ k, 0 ≤ rand k ∧ rand k < 1) :
    ∀ p ∈ mkSnow rand,
      0 ≤ p.speed ∧ -5 ≤ p.position.2.1 ∧ p.position.2.1 ≤ 20 := by
  intro p hp
  rw [mkSnow] at hp
  obtain ⟨i, _, rfl⟩ := List.mem_map.1 hp
  obtain ⟨hy0, hy1⟩ := hr (7 * i + 1)
  obtain ⟨hs0, _⟩ := hr (7 * i + 3)
  refine ⟨by nlinarith, by nlinarith, by nlinarith⟩

end SnowLemmas

section CurveLemmas

/-- The curve builder emits exactly 201 control points. -/
theorem curvePoints_length : curvePoints.length = 201 := by
  simp [curvePoints]

/-- The `i`-th control point of the helix, in closed form. -/
theorem curvePoints_get? (i : ℕ) (hi : i ≤ 200) :
    curvePoints.get? i
      = some (Real.cos ((i : ℝ) / 200 * Real.pi * 2 * 3.5) * (3.7 * (1 - (i : ℝ) / 200) + 0.3),
          -3.2 + (i : ℝ) / 200 * (5.8 - -3.2),
          Real.sin ((i : ℝ) / 200 * Real.pi * 2 * 3.5) * (3.7 * (1 - (i : ℝ) / 200) + 0.3)) := by
  simp only [curvePoints]
  rw [List.get?_map, List.get?_range (by omega : i < 200 + 1)]
  rfl

/-- The first control point sits at the base: radius 4, height −3.2. -/
theorem curvePoints_head : curvePoints.get? 0 = some (4, -3.2, 0) := by
  rw [curvePoints_get? 0 (by omega)]
  have hz : ((0 : ℕ) : ℝ) / 200 * Real.pi * 2 * 3.5 = 0 := by
    push_cast
    ring
  rw [hz, Real.cos_zero, Real.sin_zero]
  norm_num

/-- The last control point sits at the top: radius 0.3 (on the
negative-x side of the axis, angle 7π), height 5.8. -/
theorem curvePoints_last : curvePoints.get? 200 = some (-0.3, 5.8, 0) := by
  rw [curvePoints_get? 200 (by omega)]
  have hang : ((200 : ℕ) : ℝ) / 200 * Real.pi * 2 * 3.5
      = Real.pi + (3 : ℤ) * (2 * Real.pi) := by
    push_cast
    ring
  rw [hang, Real.cos_add_int_mul_two_pi, Real.sin_add_int_mul_two_pi,
    Real.cos_pi, Real.sin_pi]
  norm_num

end CurveLemmas

section ConcreteInputs

/-- A concrete stand-in for the external `Object3D.lookAt` Euler
computation, for instantiating universally quantified results. -/
noncomputable def look0 : ℝ × ℝ × ℝ → ℝ × ℝ × ℝ → ℝ × ℝ × ℝ := fun _ _ => (0, 0, 0)

/-- A concrete admissible random stream: constantly `1/2 ∈ [0, 1)`. -/
noncomputable def rand0 : ℕ → ℝ := fun _ => 1 / 2

/-- A concrete stand-in for the external `curve.getPointAt` sampler. -/
noncomputable def curve0 : ℝ → ℝ × ℝ × ℝ := fun _ => (0, 0, 0)

/-- `l.flatMap F` has `3 * l.length` elements when every block has
three. -/
theorem flatMap_three_length {α : Type} (F : α → List ℝ)
    (hF : ∀ b, (F b).length = 3) :
    ∀ l : List α, (l.flatMap F).length = 3 * l.length := by
  intro l
  induction l with
  | nil => simp
  | cons a l ih =>
    simp only [List.flatMap_cons, List.length_append, hF, ih, List.length_cons]
    omega

end ConcreteInputs

/-- C1 (amended): for every instance count `N` and layer count `L` the
layout generation is total (never fails) and returns exactly
`⌊N / L⌋ * L` instances — the remainder of `N` modulo `L` is silently
dropped, so the output is `N` instances only when `L` divides `N`. -/
theorem treeLayout_count_drops_remainder
    (look : ℝ × ℝ × ℝ → ℝ × ℝ × ℝ → ℝ × ℝ × ℝ) (rand : ℕ → ℝ) (N L : ℕ) :
    (treeBrushes look rand N L).length = N / L * L ∧ N / L * L ≤ N :=
  ⟨treeBrushes_length look rand N L, Nat.div_mul_le_self N L⟩

/-- C1 counterexample: with the code's constants `N = 1100`, `L = 9`
the layout holds 1098 instances, not `N = 1100` as the claim states. -/
theorem treeLayout_count_ne_brushCount :
    (treeBrushes look0 rand0 BRUSH_COUNT LAYER_COUNT).length = 1098
    ∧ (treeBrushes look0 rand0 BRUSH_COUNT LAYER_COUNT).length ≠ 1100 := by
  have h := treeBrushes_length look0 rand0 BRUSH_COUNT LAYER_COUNT
  rw [h, BRUSH_COUNT, LAYER_COUNT]
  norm_num

/-- C2: for all `N` and `L` the layout returns exactly `⌊N / L⌋ * L`
instances; every instance generated by the inner loop of an in-range
layer `l` lies at horizontal radius at most `radiusBase l L`; and the
layer base height `yBase` is strictly monotone in the layer index. -/
theorem treeLayout_count_radius_yBase
    (look : ℝ × ℝ × ℝ → ℝ × ℝ × ℝ → ℝ × ℝ × ℝ) (rand : ℕ → ℝ) (N L : ℕ)
    (hrand : ∀ n, 0 ≤ rand n ∧ rand n < 1) :
    (treeBrushes look rand N L).length = N / L * L
    ∧ (∀ l, l < L → ∀ (cnt idx : ℕ) (yB : ℝ),
        ∀ b ∈ layerBrushes look rand N cnt idx yB (radiusBase l L),
          Real.sqrt (b.position.1 ^ 2 + b.position.2.2 ^ 2) ≤ radiusBase l L)
    ∧ (∀ l1 l2 : ℕ, l1 < l2 → yBase l1 < yBase l2) := by
  refine ⟨treeBrushes_length look rand N L, ?_, ?_⟩
  · intro l hl cnt idx yB b hb
    exact layerBrushes_radius look rand N hrand cnt idx yB _
      (radiusBase_nonneg l L hl) b hb
  · intro l1 l2 h
    unfold yBase
    have hc : (l1 : ℝ) < l2 := by exact_mod_cast h
    nlinarith

/-- C2 witness: the code's constants and the constant stream `1/2`. -/
theorem treeLayout_count_radius_yBase_witness :
    (∀ n : ℕ, 0 ≤ rand0 n ∧ rand0 n < 1)
    ∧ ((treeBrushes look0 rand0 1100 9).length = 1100 / 9 * 9
      ∧ (∀ l, l < 9 → ∀ (cnt idx : ℕ) (yB : ℝ),
          ∀ b ∈ layerBrushes look0 rand0 1100 cnt idx yB (radiusBase l 9),
            Real.sqrt (b.position.1 ^ 2 + b.position.2.2 ^ 2) ≤ radiusBase l 9)
      ∧ (∀ l1 l2 : ℕ, l1 < l2 → yBase l1 < yBase l2)) :=
  ⟨fun n => by norm_num [rand0],
   treeLayout_count_radius_yBase look0 rand0 1100 9 (fun n => by norm_num [rand0])⟩

/-- C10: with the code's constants the flat layout arrays hold entries
for only 1098 instances; the matrix-init and color loops run `i` up to
`BRUSH_COUNT = 1100`, and for instances 1098 and 1099 all three reads
from each array fall past the end and return `none`. -/
theorem layout_arrays_out_of_bounds
    (look : ℝ × ℝ × ℝ → ℝ × ℝ × ℝ → ℝ × ℝ × ℝ) (rand : ℕ → ℝ) :
    (treePositions look rand BRUSH_COUNT LAYER_COUNT).length = 3 * 1098
    ∧ (treeRotations look rand BRUSH_COUNT LAYER_COUNT).length = 3 * 1098
    ∧ (treeScales look rand BRUSH_COUNT LAYER_COUNT).length = 3 * 1098
    ∧ readVec3 (treePositions look rand BRUSH_COUNT LAYER_COUNT) 1098 = (none, none, none)
    ∧ readVec3 (treePositions look rand BRUSH_COUNT LAYER_COUNT) 1099 = (none, none, none)
    ∧ readVec3 (treeRotations look rand BRUSH_COUNT LAYER_COUNT) 1098 = (none, none, none)
    ∧ readVec3 (treeRotations look rand BRUSH_COUNT LAYER_COUNT) 1099 = (none, none, none)
    ∧ readVec3 (treeScales look rand BRUSH_COUNT LAYER_COUNT) 1098 = (none, none, none)
    ∧ readVec3 (treeScales look rand BRUSH_COUNT LAYER_COUNT) 1099 = (none, none, none)
    ∧ 1098 < BRUSH_COUNT ∧ 1099 < BRUSH_COUNT := by
  have hn : (treeBrushes look rand BRUSH_COUNT LAYER_COUNT).length = 1098 := by
    have h := treeBrushes_length look rand BRUSH_COUNT LAYER_COUNT
    rw [BRUSH_COUNT, LAYER_COUNT] at h
    norm_num at h
    exact h
  have hp : (treePositions look rand BRUSH_COUNT LAYER_COUNT).length = 3 * 1098 := by
    rw [treePositions,
      @flatMap_three_length Brush (fun b => [b.position.1, b.position.2.1, b.position.2.2])
        (fun b => rfl), hn]
  have hr : (treeRotations look rand BRUSH_COUNT LAYER_COUNT).length = 3 * 1098 := by
    rw [treeRotations,
      @flatMap_three_length Brush (fun b => [b.rotation.1, b.rotation.2.1, b.rotation.2.2])
        (fun b => rfl), hn]
  have hs : (treeScales look rand BRUSH_COUNT LAYER_COUNT).length = 3 * 1098 := by
    rw [treeScales,
      @flatMap_three_length Brush (fun b => [b.scale.1, b.scale.2.1, b.scale.2.2])
        (fun b => rfl), hn]
  have hnone : ∀ (a : List ℝ), a.length = 3 * 1098 → ∀ i, 1098 ≤ i →
      readVec3 a i = (none, none, none) := by
    intro a ha i hi
    have e1 : a.get? (i * 3) = none := List.get?_eq_none.2 (by omega)
    have e2 : a.get? (i * 3 + 1) = none := List.get?_eq_none.2 (by omega)
    have e3 : a.get? (i * 3 + 2) = none := List.get?_eq_none.2 (by omega)
    rw [readVec3, e1, e2, e3]
  refine ⟨hp, hr, hs, hnone _ hp 1098 le_rfl, hnone _ hp 1099 (by omega),
    hnone _ hr 1098 le_rfl, hnone _ hr 1099 (by omega),
    hnone _ hs 1098 le_rfl, hnone _ hs 1099 (by omega), ?_, ?_⟩ <;>
    · rw [BRUSH_COUNT]
      omega

/-- C3 counterexample: for the `white` theme the high leaf color is
itself pure white, so at clamped height factor `t = 1` the assigned
tip color is exactly pure white — refuting "tips never reach pure
white" for every theme. -/
theorem gradient_white_theme_tip_is_white :
    (THEMES ThemeKey.white).leavesHigh = ((1 : ℝ), 1, 1)
    ∧ assignBrushColor (THEMES ThemeKey.white).leavesLow
        (THEMES ThemeKey.white).leavesHigh 1 = ((1 : ℝ), 1, 1) := by
  constructor
  · simp only [THEMES, rgb]
    norm_num
  · rw [assignBrushColor, if_neg (by norm_num)]
    simp only [THEMES, rgb, lerpColors]
    norm_num

/-- C3 (amended): for every clamped height factor `t ∈ [0,1]` and
every theme, the assigned color equals the spec's two-segment
gradient (lerp `low → high` at `t/0.65` below `0.65`, else lerp
`high → white` at `((t-0.65)/0.35)·0.7`); the interpolation fraction
toward white never exceeds `0.7`, so for every theme whose high leaf
color is not itself pure white — every theme except `white` — tips
never reach pure white. -/
theorem gradient_two_segment_amended (t : ℝ) (ht0 : 0 ≤ t) (ht1 : t ≤ 1) :
    (∀ low high : Color, assignBrushColor low high t = specTwoSegmentGradient low high t)
    ∧ (t - 0.65) / 0.35 * 0.7 ≤ 0.7
    ∧ (∀ k : ThemeKey, k ≠ ThemeKey.white →
        assignBrushColor (THEMES k).leavesLow (THEMES k).leavesHigh t ≠ ((1 : ℝ), 1, 1)) := by
  refine ⟨?_, ?_, ?_⟩
  · intro low high
    rw [assignBrushColor, specTwoSegmentGradient]
    split
    · rw [lerpColors, specLerp]
      refine Prod.ext ?_ (Prod.ext ?_ ?_) <;> ring
    · rw [lerpColors, specLerp]
      simp only [rgb]
      refine Prod.ext ?_ (Prod.ext ?_ ?_) <;> norm_num <;> ring
  · have : (t - 0.65) / 0.35 ≤ 1 := by
      rw [div_le_one (by norm_num)]
      linarith
    linarith
  · intro k hk hcontra
    obtain ⟨hlo, hhi⟩ := theme_red_lt_one k hk
    have hred : (assignBrushColor (THEMES k).leavesLow (THEMES k).leavesHigh t).1 < 1 := by
      rw [assignBrushColor]
      split
      · rename_i hlt
        rw [lerpColors]
        exact lerp_channel_lt_one hlo hhi (by positivity)
          (by rw [div_le_one (by norm_num)]; linarith)
      · rename_i hge
        push_neg at hge
        rw [lerpColors]
        simp only [rgb]
        have h1 : (t - 0.65) / 0.35 * 0.7 ≤ 0.7 := by
          have : (t - 0.65) / 0.35 ≤ 1 := by
            rw [div_le_one (by norm_num)]
            linarith
          linarith
        have hx : (0:ℝ) < 1 - (t - 0.65) / 0.35 * 0.7 := by linarith
        have hy : (0:ℝ) < 1 - (THEMES k).leavesHigh.1 := by linarith
        nlinarith [mul_pos hx hy]
    rw [hcontra] at hred
    norm_num at hred

/-- C9: for every instance height `y` and noise draw `nr ∈ [0,1]`, the
noise term has magnitude at most `0.025`, the height factor (clamp,
perturb, re-clamp) lands in `[0,1]`, and for every theme and every
`t ∈ [0,1]` — in particular the height factor itself — every blended
color channel stays within `[0,1]`. -/
theorem color_channels_in_unit (y nr : ℝ) (h0 : 0 ≤ nr) (h1 : nr ≤ 1) :
    |(nr - 0.5) * 0.05| ≤ 0.025
    ∧ 0 ≤ heightFactor y nr ∧ heightFactor y nr ≤ 1
    ∧ (∀ (k : ThemeKey) (t : ℝ), 0 ≤ t → t ≤ 1 →
        inUnitCube (assignBrushColor (THEMES k).leavesLow (THEMES k).leavesHigh t))
    ∧ (∀ k : ThemeKey,
        inUnitCube (assignBrushColor (THEMES k).leavesLow (THEMES k).leavesHigh
          (heightFactor y nr))) := by
  have hf0 : 0 ≤ heightFactor y nr := by
    simp only [heightFactor]
    exact le_max_left 0 _
  have hf1 : heightFactor y nr ≤ 1 := by
    simp only [heightFactor]
    exact max_le (by norm_num) (min_le_left 1 _)
  have hcube : ∀ (k : ThemeKey) (t : ℝ), 0 ≤ t → t ≤ 1 →
      inUnitCube (assignBrushColor (THEMES k).leavesLow (THEMES k).leavesHigh t) :=
    fun k t ht0 ht1 =>
      assignBrushColor_unit (theme_leaves_unit k).1 (theme_leaves_unit k).2 ht0 ht1
  refine ⟨?_, hf0, hf1, hcube, fun k => hcube k _ hf0 hf1⟩
  rw [abs_le]
  constructor <;> nlinarith

/-- C9 witness: instantiation at `y = 7`, noise draw `1/2`. -/
theorem color_channels_in_unit_witness :
    ((0:ℝ) ≤ 1 / 2 ∧ (1:ℝ) / 2 ≤ 1)
    ∧ (0 ≤ heightFactor 7 (1 / 2) ∧ heightFactor 7 (1 / 2) ≤ 1)
    ∧ inUnitCube (assignBrushColor (THEMES ThemeKey.green).leavesLow
        (THEMES ThemeKey.green).leavesHigh (heightFactor 7 (1 / 2))) :=
  ⟨⟨by norm_num, by norm_num⟩,
   ⟨(color_channels_in_unit 7 (1 / 2) (by norm_num) (by norm_num)).2.1,
    (color_channels_in_unit 7 (1 / 2) (by norm_num) (by norm_num)).2.2.1⟩,
   (color_channels_in_unit 7 (1 / 2) (by norm_num) (by norm_num)).2.2.2.2 ThemeKey.green⟩

/-- C8: each frame the background controller clamps the frame delta to
`0.1` and lerps with factor `(min delta 0.1) * 2`; for every
nonnegative delta — arbitrarily large included — the result is a
convex combination of the prior color and the target, so it never
overshoots the target. -/
theorem background_lerp_no_overshoot (c targetColor : Color) (delta : ℝ)
    (hd : 0 ≤ delta) :
    bgStep c targetColor delta = lerpColors c targetColor (min delta 0.1 * 2)
    ∧ ∃ alpha : ℝ, 0 ≤ alpha ∧ alpha ≤ 1
        ∧ bgStep c targetColor delta
          = ((1 - alpha) * c.1 + alpha * targetColor.1,
             (1 - alpha) * c.2.1 + alpha * targetColor.2.1,
             (1 - alpha) * c.2.2 + alpha * targetColor.2.2) := by
  have hmin0 : 0 ≤ min delta 0.1 := le_min hd (by norm_num)
  have hmin1 : min delta 0.1 ≤ 0.1 := min_le_right _ _
  refine ⟨rfl, min delta 0.1 * 2, by linarith, by linarith, ?_⟩
  rw [bgStep, lerpColors]
  refine Prod.ext ?_ (Prod.ext ?_ ?_) <;> ring

/-- C8 witness: a single long frame (`delta = 5`) blending black
toward white stays a convex combination of the two. -/
theorem background_lerp_no_overshoot_witness :
    ((0:ℝ) ≤ 5)
    ∧ ∃ alpha : ℝ, 0 ≤ alpha ∧ alpha ≤ 1
        ∧ bgStep ((0:ℝ), 0, 0) ((1:ℝ), 1, 1) 5
          = ((1 - alpha) * 0 + alpha * 1,
             (1 - alpha) * 0 + alpha * 1,
             (1 - alpha) * 0 + alpha * 1) :=
  ⟨by norm_num,
   (background_lerp_no_overshoot ((0:ℝ), 0, 0) ((1:ℝ), 1, 1) 5 (by norm_num)).2⟩

/-- A concrete admissible random stream for the snow construction:
draw 0.95 for every height (`Math.random()` call index ≡ 1 mod 7) and
0 for everything else, giving every particle initial height 19 and
fall speed 0.03. -/
noncomputable def snowRand1 : ℕ → ℝ := fun n => if n % 7 = 1 then 0.95 else 0

/-- C7 counterexample: a population legitimately produced by the
construction (all draws in `[0,1)`) starts at height 19; after one
per-frame update the first particle's stored height is 18.97, outside
`[-5, 15]`. -/
theorem snow_height_exceeds_15_after_update :
    (∀ n : ℕ, 0 ≤ snowRand1 n ∧ snowRand1 n < 1)
    ∧ ((stepSnow (mkSnow snowRand1)).get? 0).map (fun p => p.position.2.1)
        = some 18.97
    ∧ ¬ ((18.97 : ℝ) ≤ 15) := by
  refine ⟨?_, ?_, by norm_num⟩
  · intro n
    simp only [snowRand1]
    split <;> norm_num
  · rw [stepSnow, mkSnow, List.map_map]
    rw [List.get?_map, List.get?_range (by norm_num : (0:ℕ) < 800)]
    simp only [Option.map_some', Function.comp_apply, stepSnowParticle, snowRand1]
    norm_num

/-- C7 (amended): the particle count never changes across any number
of per-frame updates; heights in `[-5, 15]` with nonnegative speeds
are preserved forever (heights below −5 are reset to 15); but the
construction draws initial heights in `[0, 20)`, so across updates the
stored heights are only guaranteed to lie in `[-5, 20]`, reaching
`[-5, 15]` once a particle has fallen to 15 or below. -/
theorem snow_count_and_height_bounds :
    (∀ (n : ℕ) (ps : List SnowParticle), (iterSnow n ps).length = ps.length)
    ∧ (∀ ps : List SnowParticle,
        (∀ p ∈ ps, 0 ≤ p.speed ∧ -5 ≤ p.position.2.1 ∧ p.position.2.1 ≤ 15) →
        ∀ (n : ℕ), ∀ p ∈ iterSnow n ps,
          -5 ≤ p.position.2.1 ∧ p.position.2.1 ≤ 15)
    ∧ (∀ rand : ℕ → ℝ, (∀ k, 0 ≤ rand k ∧ rand k < 1) →
        (mkSnow rand).length = 800
        ∧ ∀ (n : ℕ), ∀ p ∈ iterSnow n (mkSnow rand),
            -5 ≤ p.position.2.1 ∧ p.position.2.1 ≤ 20) := by
  refine ⟨fun n ps => iterSnow_length n ps, ?_, ?_⟩
  · intro ps hps n p hp
    have h := iterSnow_preserves
      (fun p => 0 ≤ p.speed ∧ -5 ≤ p.position.2.1 ∧ p.position.2.1 ≤ 15)
      (stepSnowParticle_bounds 15 le_rfl) n ps hps p hp
    exact ⟨h.2.1, h.2.2⟩
  · intro rand hr
    refine ⟨by simp [mkSnow], ?_⟩
    intro n p hp
    have h := iterSnow_preserves
      (fun p => 0 ≤ p.speed ∧ -5 ≤ p.position.2.1 ∧ p.position.2.1 ≤ 20)
      (stepSnowParticle_bounds 20 (by norm_num)) n (mkSnow rand)
      (mkSnow_init rand hr) p hp
    exact ⟨h.2.1, h.2.2⟩

/-- C7 witness: the constant stream `1/2` builds 800 particles at
height 10 with speed 0.055; the `[-5, 15]` band then holds after three
updates, and the construction-bound part applies as well. -/
theorem snow_count_and_height_bounds_witness :
    (∀ p ∈ mkSnow rand0, 0 ≤ p.speed ∧ -5 ≤ p.position.2.1 ∧ p.position.2.1 ≤ 15)
    ∧ (∀ p ∈ iterSnow 3 (mkSnow rand0),
        -5 ≤ p.position.2.1 ∧ p.position.2.1 ≤ 15)
    ∧ (∀ k : ℕ, 0 ≤ rand0 k ∧ rand0 k < 1)
    ∧ (mkSnow rand0).length = 800 := by
  have h1 : ∀ p ∈ mkSnow rand0,
      0 ≤ p.speed ∧ -5 ≤ p.position.2.1 ∧ p.position.2.1 ≤ 15 := by
    intro p hp
    rw [mkSnow] at hp
    obtain ⟨i, _, rfl⟩ := List.mem_map.1 hp
    norm_num [rand0]
  have h2 : ∀ k : ℕ, 0 ≤ rand0 k ∧ rand0 k < 1 := fun k => by norm_num [rand0]
  exact ⟨h1, snow_count_and_height_bounds.2.1 (mkSnow rand0) h1 3, h2,
    (snow_count_and_height_bounds.2.2 rand0 h2).1⟩

/-- C3 witness: instantiation at `t = 0.9` for the `green` theme. -/
theorem gradient_two_segment_amended_witness :
    ((0:ℝ) ≤ 0.9 ∧ (0.9:ℝ) ≤ 1)
    ∧ assignBrushColor (THEMES ThemeKey.green).leavesLow
        (THEMES ThemeKey.green).leavesHigh 0.9 ≠ ((1 : ℝ), 1, 1) :=
  ⟨⟨by norm_num, by norm_num⟩,
   (gradient_two_segment_amended 0.9 (by norm_num) (by norm_num)).2.2
     ThemeKey.green (by simp)⟩



/-- C4: the placer applied to the empty string returns an empty
placement sequence; applied to any non-empty text it lays out exactly
the 140-character sequence obtained by appending the separator,
repeating and truncating, regardless of input text length. -/
theorem textPlacer_empty_and_fixed_length :
    (∀ g : ℝ → ℝ × ℝ × ℝ, textLayout g [] = [])
    ∧ (∀ (g : ℝ → ℝ × ℝ × ℝ) (text : List Char), text ≠ [] →
        (textLayout g text).map Glyph.char = ribbonChars text
        ∧ (textLayout g text).length = 140) := by
  refine ⟨fun g => by simp [textLayout],
    fun g text h => ⟨textLayout_map_char g text h, textLayout_length g text h⟩⟩

/-- C4 witness: the text `"HI"`. -/
theorem textPlacer_empty_and_fixed_length_witness :
    ("HI".toList ≠ ([] : List Char))
    ∧ (textLayout curve0 "HI".toList).length = 140 :=
  ⟨by decide,
   (textPlacer_empty_and_fixed_length.2 curve0 "HI".toList (by decide)).2⟩

/-- C5: for nonempty text, glyph `i` (of 140) is placed at the curve
point sampled at `t = 0.98 - i·((0.98-0.02)/140)` clamped into
`[0.001, 0.999]`, with yaw `atan2(point.x, point.z)`; the parameter is
strictly decreasing in the glyph index, so characters walk backward
along the curve from the top; and for `"MERRY CHRISTMAS"` the first 23
glyph characters, in order of increasing arc distance from the top,
read `"MERRY CHRISTMAS   ★   M"`. -/
theorem textPlacer_glyph_placement (g : ℝ → ℝ × ℝ × ℝ) (text : List Char)
    (h : text ≠ []) :
    ((textLayout g text).map Glyph.char = ribbonChars text)
    ∧ (∀ i : ℕ, i < 140 →
        ((textLayout g text).get? i).map Glyph.position
          = some (g (min 0.999 (max 0.001 ((0.98:ℝ) - (i:ℝ) * ((0.98 - 0.02) / 140)))))
        ∧ ((textLayout g text).get? i).map Glyph.rotation
          = some (0, atan2
              (g (min 0.999 (max 0.001 ((0.98:ℝ) - (i:ℝ) * ((0.98 - 0.02) / 140))))).1
              (g (min 0.999 (max 0.001 ((0.98:ℝ) - (i:ℝ) * ((0.98 - 0.02) / 140))))).2.2, 0))
    ∧ (∀ i j : ℕ, i < j → j < 140 →
        (0.98:ℝ) - (j:ℝ) * ((0.98 - 0.02) / 140)
          < (0.98:ℝ) - (i:ℝ) * ((0.98 - 0.02) / 140))
    ∧ List.take 23 ((textLayout g ("MERRY CHRISTMAS".toList)).map Glyph.char)
        = "MERRY CHRISTMAS   ★   M".toList := by
  refine ⟨textLayout_map_char g text h, ?_, ?_, ?_⟩
  · intro i hi
    rw [textLayout_get? g text h i hi]
    constructor
    · simp only [Option.map_some', glyphAt, Nat.cast_ofNat]
    · simp only [Option.map_some', glyphAt, Nat.cast_ofNat]
  · intro i j hij hj
    have hc : (i:ℝ) < (j:ℝ) := by exact_mod_cast hij
    nlinarith
  · rw [textLayout_map_char g ("MERRY CHRISTMAS".toList) (by decide)]
    decide

/-- C5 witness: the text `"HI"`. -/
theorem textPlacer_glyph_placement_witness :
    ("HI".toList ≠ ([] : List Char))
    ∧ (textLayout curve0 "HI".toList).map Glyph.char = ribbonChars "HI".toList :=
  ⟨by decide, (textPlacer_glyph_placement curve0 "HI".toList (by decide)).1⟩

/-- C6: the curve builder produces exactly 201 control points; the
`i`-th point is `(cos(t·2π·3.5)·r, h, sin(t·2π·3.5)·r)` with
`t = i/200`, `h = -3.2 + t·(5.8 − (−3.2))` and `r = 3.7·(1−t) + 0.3`;
the point at `t = 0` has the base radius 4 and height −3.2, and the
point at `t = 1` has the top radius 0.3 and height 5.8. -/
theorem curveBuilder_points :
    curvePoints.length = 201
    ∧ (∀ i : ℕ, i ≤ 200 →
        curvePoints.get? i
          = some (Real.cos ((i : ℝ) / 200 * Real.pi * 2 * 3.5)
                * (3.7 * (1 - (i : ℝ) / 200) + 0.3),
              -3.2 + (i : ℝ) / 200 * (5.8 - -3.2),
              Real.sin ((i : ℝ) / 200 * Real.pi * 2 * 3.5)
                * (3.7 * (1 - (i : ℝ) / 200) + 0.3)))
    ∧ curvePoints.get? 0 = some (4, -3.2, 0)
    ∧ curvePoints.get? 200 = some (-0.3, 5.8, 0) :=
  ⟨curvePoints_length, curvePoints_get?, curvePoints_head, curvePoints_last⟩

/-- C6 witness: the midpoint control point `i = 100`. -/
theorem curveBuilder_points_witness :
    (100 ≤ 200)
    ∧ curvePoints.get? 100
        = some (Real.cos (((100:ℕ) : ℝ) / 200 * Real.pi * 2 * 3.5)
              * (3.7 * (1 - ((100:ℕ) : ℝ) / 200) + 0.3),
            -3.2 + ((100:ℕ) : ℝ) / 200 * (5.8 - -3.2),
            Real.sin (((100:ℕ) : ℝ) / 200 * Real.pi * 2 * 3.5)
              * (3.7 * (1 - ((100:ℕ) : ℝ) / 200) + 0.3)) :=
  ⟨by norm_num, curveBuilder_points.2.1 100 (by norm_num)⟩
